import Mathlib

/-!
Verification of the anomaly-detection report generator of the quack-mcp
repository (`src/index.ts`, `generateAnomalyReport` and the five detector
methods `checkDuplicates`, `checkNullValues`, `checkStatisticalOutliers`,
`checkPatternAnomalies`, `checkBusinessLogicAnomalies`).

The detectors issue read-only SQL queries against an embedded DuckDB
instance.  The shallow embedding models a table as its schema (the rows
returned by `DESCRIBE`) together with its list of rows, and each SQL
aggregate the detectors use (COUNT, GROUP BY/HAVING, AVG, STDDEV,
percentile_cont, LENGTH, comparisons) is translated into a pure function
over that data.  JavaScript numbers are modelled as `ℚ`; `ORDER BY`
results are determinized by a stable insertion sort (the properties proved
below do not depend on how the engine breaks ties).
-/

/-! ### Severity model (source: `sevOrder` map, line 1154) -/

/-- The four severity levels of a finding. -/
inductive Severity
  | low
  | medium
  | high
  | critical
deriving DecidableEq

/-- Rank of a severity: `{ low: 1, medium: 2, high: 3, critical: 4 }`. -/
def sevRank : Severity → Nat
  | .low => 1
  | .medium => 2
  | .high => 3
  | .critical => 4

/-- Lookup in the `sevOrder` object by the caller-supplied threshold string:
`sevOrder[severityThreshold]` is `undefined` (`none`) for any other string. -/
def sevOrderLookup : String → Option Nat
  | "low" => some 1
  | "medium" => some 2
  | "high" => some 3
  | "critical" => some 4
  | _ => none

/-- Embedding of `sevOrder[severityThreshold as keyof typeof sevOrder] || 2`:
an unrecognized threshold string defaults to rank 2 (medium). -/
def minSeverityOf (thr : String) : Nat := (sevOrderLookup thr).getD 2

/-! ### Findings (the anomaly objects pushed by the detectors) -/

/-- The `type` tags appearing in the anomaly objects of the source. -/
inductive FType
  | duplicate
  | null_values
  | statistical_outlier
  | length_pattern
  | business_logic
deriving DecidableEq

/-- One anomaly object as pushed by a detector.  Fields that some
detectors omit are `Option`s. -/
structure Finding where
  type : FType
  severity : Severity
  title : String
  impact : String
  affected_records : Nat
  percentage : Option ℚ := none
  description : String
  examples : Option String := none
  recommendation : Option String := none
deriving DecidableEq

/-! ### Tables, values and columns -/

/-- A cell value returned by the engine: `NULL`, a number, a string, or a
date/timestamp (dates are totally ordered; we model them as integers). -/
inductive Value
  | null
  | num (q : ℚ)
  | str (s : String)
  | date (d : ℤ)
deriving DecidableEq

/-- Rendering of a value inside a template literal (used for the
`examples` strings).  The exact text matters to no claim. -/
def Value.render : Value → String
  | .null => "null"
  | .num q => toString q
  | .str s => s
  | .date d => toString d

/-- One row of `DESCRIBE <table>`: column name and declared type. -/
structure Col where
  column_name : String
  column_type : String
deriving DecidableEq

/-- A table: the schema returned by `DESCRIBE` plus the data rows.  A row
is an association list from column names to values. -/
structure Table where
  schema : List Col
  rows : List (List (String × Value))

/-- Reading a column of a row (a missing entry reads as `NULL`). -/
def getVal (r : List (String × Value)) (c : String) : Value :=
  (List.lookup c r).getD Value.null

/-- The column of values named `c`, in row order. -/
def colValues (t : Table) (c : String) : List Value :=
  t.rows.map (fun r => getVal r c)

/-- The names of the schema columns (`schema.map(col => col.column_name)`). -/
def schemaNames (t : Table) : List String :=
  t.schema.map (fun col => col.column_name)

/-- Embedding of JavaScript `hay.includes(needle)`: substring test. -/
def containsStr (hay needle : String) : Bool :=
  decide (needle.data <:+: hay.data)

/-- Embedding of `Math.round(x * 100) / 100` (and of DuckDB
`ROUND(x, 2)`; the two agree on the nonnegative arguments that occur
here): round to two decimals, halves up. -/
def round2 (q : ℚ) : ℚ := (Rat.floor (q * 100 + 1/2) : ℚ) / 100

/-! ### A stable insertion sort, determinizing the engine's `ORDER BY`
and the ECMAScript 2019 stable `Array.prototype.sort`. -/

/-- Insert `a` before the first element `b` with `le a b`. -/
def insertLe (le : α → α → Bool) (a : α) : List α → List α
  | [] => [a]
  | b :: l => if le a b then a :: b :: l else b :: insertLe le a l

/-- Stable insertion sort with respect to `le`. -/
def isortBy (le : α → α → Bool) : List α → List α
  | [] => []
  | a :: l => insertLe le a (isortBy le l)

/-- The comparison used for `ORDER BY <key> DESC` and for the final
severity sort `(a, b) => sevOrder[b.severity] - sevOrder[a.severity]`:
`a` may stay before `b` whenever `key b ≤ key a`. -/
def keyDescLe (key : α → Nat) : α → α → Bool :=
  fun x y => decide (key y ≤ key x)

/-- Stable sort descending by a natural-number key. -/
def sortByKeyDesc (key : α → Nat) (l : List α) : List α :=
  isortBy (keyDescLe key) l

/-! ### Null Detector (`checkNullValues`, source lines 1306-1348) -/

/-- Null count of a column: `COUNT(*) - COUNT(col)`. -/
def nullCountOf (t : Table) (c : String) : Nat :=
  (colValues t c).countP (fun v => decide (v = Value.null))

/-- The SQL value `ROUND((COUNT(*) - COUNT(col)) * 100.0 / COUNT(*), 2)`
(the JavaScript `|| 0` default only matters on an empty table, where no
finding is emitted anyway). -/
def nullPctFor (nullCount totalRows : Nat) : ℚ :=
  if totalRows = 0 then 0 else round2 ((nullCount : ℚ) * 100 / (totalRows : ℚ))

/-- Severity policy of the null detector (lines 1324-1327). -/
def nullSeverityFor (nullCount totalRows : Nat) : Severity :=
  if 50 < nullPctFor nullCount totalRows then .critical
  else if 25 < nullPctFor nullCount totalRows then .high
  else if 10 < nullPctFor nullCount totalRows then .medium
  else .low

/-- The body of the per-column loop of `checkNullValues` after the
null-count query returns: a pure function of the two counts.  NOTE on the
title: the source iterates over column-name strings but interpolates
`column.column_name` into the template; property access on a string is
`undefined` in JavaScript, so the title renders literally as
`"High Null Rate in undefined"`. -/
def nullFindingFor (nullCount totalRows : Nat) : Option Finding :=
  if 0 < nullCount then
    if nullSeverityFor nullCount totalRows ≠ Severity.low ∨ 100 < nullCount then
      some { type := .null_values,
             severity := nullSeverityFor nullCount totalRows,
             title := "High Null Rate in undefined",
             impact := "Data completeness, analysis accuracy",
             affected_records := nullCount,
             percentage := some (nullPctFor nullCount totalRows),
             description := toString nullCount ++ " null values (" ++
               toString (nullPctFor nullCount totalRows) ++ "% of total)",
             recommendation := some (if 25 < nullPctFor nullCount totalRows
               then "Investigate data source, implement validation"
               else "Consider default values or imputation") }
    else none
  else none

/-- Per-column null check; a column name not present in the schema makes
the interpolated query fail, which is caught and skips the column. -/
def checkNullValuesCol (t : Table) (c : String) : Option Finding :=
  if c ∈ schemaNames t then nullFindingFor (nullCountOf t c) t.rows.length
  else none

/-- `checkNullValues`: every focus column, or every schema column (the
`totalRows` argument of the source is unused by its body). -/
def checkNullValues (t : Table) (fc : List String) : List Finding :=
  (if fc.isEmpty then schemaNames t else fc).filterMap (checkNullValuesCol t)

/-! ### Duplicate Detector (`checkDuplicates`, source lines 1255-1304) -/

/-- The non-null values of a column (`WHERE col IS NOT NULL`). -/
def nonNullValues (t : Table) (c : String) : List Value :=
  (colValues t c).filter (fun v => decide (v ≠ Value.null))

/-- Result of the `GROUP BY col HAVING COUNT(*) > 1` query before
ordering: each distinct non-null value with its occurrence count, kept
when the count exceeds 1. -/
def dupGroupsOf (t : Table) (c : String) : List (Value × Nat) :=
  ((nonNullValues t c).dedup.map (fun v => (v, (nonNullValues t c).count v))).filter
    (fun g => decide (1 < g.2))

/-- `ORDER BY duplicate_count DESC LIMIT 10` (ties determinized stably;
no property proved below depends on how the engine breaks ties). -/
def keptDupGroups (t : Table) (c : String) : List (Value × Nat) :=
  (sortByKeyDesc Prod.snd (dupGroupsOf t c)).take 10

/-- `duplicates.reduce((sum, dup) => sum + Number(dup.duplicate_count || 0), 0)`. -/
def totalDuplicateRecords (t : Table) (c : String) : Nat :=
  ((keptDupGroups t c).map Prod.snd).sum

/-- `Math.max(...duplicates.map(d => Number(d.duplicate_count || 0)))`
(used only when the kept list is nonempty). -/
def maxKeptRepeat (t : Table) (c : String) : Nat :=
  ((keptDupGroups t c).map Prod.snd).foldr max 0

def checkDuplicatesCol (t : Table) (c : String) : Option Finding :=
  if c ∈ schemaNames t then
    if (keptDupGroups t c).isEmpty then none
    else
      some { type := .duplicate,
             severity :=
               if 50000 < maxKeptRepeat t c then .critical
               else if 1000 < maxKeptRepeat t c then .high
               else if 10 < maxKeptRepeat t c then .medium
               else .low,
             title := "Duplicate Values in " ++ c,
             impact := "Data integrity, potential processing errors",
             affected_records := totalDuplicateRecords t c,
             description := "Found " ++ toString (keptDupGroups t c).length ++
               " unique values with duplicates, max " ++
               toString (maxKeptRepeat t c) ++ " occurrences",
             examples := some (String.intercalate "\n"
               (((keptDupGroups t c).take 3).map
                 (fun g => g.1.render ++ ": " ++ toString g.2 ++ " occurrences"))),
             recommendation := some (if 1000 < maxKeptRepeat t c
               then "URGENT: Investigate data corruption, tracking number system failure"
               else "Review business logic for duplicates") }
  else none

/-- `checkDuplicates`: the focus columns or all schema columns, capped at
8 by `columnsToCheck.slice(0, 8)`. -/
def checkDuplicates (t : Table) (fc : List String) : List Finding :=
  ((if fc.isEmpty then schemaNames t else fc).take 8).filterMap (checkDuplicatesCol t)

/-! ### Statistical Outlier Detector (`checkStatisticalOutliers`,
source lines 1350-1450) -/

def Value.toNum : Value → Option ℚ
  | .num q => some q
  | _ => none

/-- The non-null values of a numeric column, as rationals
(`WHERE col IS NOT NULL`; a well-typed numeric column holds only numbers
and NULLs, so this is also its non-null row count `total_count`). -/
def qVals (t : Table) (c : String) : List ℚ :=
  (colValues t c).filterMap Value.toNum

/-- `AVG(col)`. -/
def meanOf (l : List ℚ) : ℚ := l.sum / (l.length : ℚ)

/-- `STDDEV(col)` is DuckDB's sample standard deviation, NULL on fewer
than two rows; we carry the (rational) variance and characterize every
comparison against `√variance` exactly (see `sigma3Outlier`). -/
def varOf (l : List ℚ) : Option ℚ :=
  if l.length < 2 then none
  else some (((l.map (fun v => (v - meanOf l)^2)).sum) / ((l.length : ℚ) - 1))

/-- `percentile_cont(p) WITHIN GROUP (ORDER BY col)`: continuous
interpolation on the ascending-sorted non-null values. -/
def percentileCont (sorted : List ℚ) (p : ℚ) : ℚ :=
  if sorted.length = 0 then 0
  else
    let h : ℚ := p * ((sorted.length : ℚ) - 1)
    let i : ℕ := (Rat.floor h).toNat
    let lo := sorted.getD i 0
    let hi := sorted.getD (i + 1) lo
    lo + (h - (Rat.floor h : ℚ)) * (hi - lo)

/-- Decidable form of `x > mean + 3·σ ∨ x < mean − 3·σ` for `σ = √var`,
`var > 0`, obtained by squaring both sides. -/
def sigma3Outlier (mean var x : ℚ) : Bool :=
  (decide (mean < x) && decide (9 * var < (x - mean)^2)) ||
  (decide (x < mean) && decide (9 * var < (mean - x)^2))

/-- `Math.round(100 * √var)` computed exactly: for `var = a/b ≥ 0` it
equals `⌊(√(40000·a·b) + b) / (2·b)⌋`, an integer square root. -/
def sqrtRound100 (var : ℚ) : Nat :=
  (Nat.sqrt (40000 * var.num.toNat * var.den) + var.den) / (2 * var.den)

/-- `Math.round(stddev * 100) / 100` where `stddev = √var`. -/
def sqrtRound2 (var : ℚ) : ℚ := (sqrtRound100 var : ℚ) / 100

/-- The shared tail of both method branches (lines 1416-1441): count the
outliers, and when there is at least one, build the finding.  The
percentage divides by `total_count`, the column's non-null row count. -/
def mkOutlierFinding (c : String) (n : Nat) (minV maxV mean : ℚ)
    (outliers : List ℚ) (outlierCount : Nat) (method : String) : Option Finding :=
  if 0 < outlierCount then
    some { type := .statistical_outlier,
           severity := if 5 < (outlierCount : ℚ) / (n : ℚ) * 100 then .high
             else if 1 < (outlierCount : ℚ) / (n : ℚ) * 100 then .medium else .low,
           title := "Statistical Outliers in " ++ c,
           impact := "Potential data quality issues, skewed analysis",
           affected_records := outlierCount,
           percentage := some (round2 ((outlierCount : ℚ) / (n : ℚ) * 100)),
           description := toString outlierCount ++ " values identified using " ++ method,
           examples := some ("Range: " ++ toString minV ++ " to " ++ toString maxV ++
             "\n" ++ "Outlier examples: " ++ String.intercalate ", "
               (((isortBy (fun a b => decide (|b - mean| ≤ |a - mean|)) outliers).take 5).map
                 toString)),
           recommendation := some "Investigate extreme values, consider data validation rules" }
  else none

/-- `ORDER BY col` ascending, over the non-null values, as performed
inside `percentile_cont`. -/
def sortedQVals (t : Table) (c : String) : List ℚ :=
  isortBy (fun a b => decide (a ≤ b)) (qVals t c)

/-- `percentile_cont(0.25) WITHIN GROUP (ORDER BY col)`. -/
def q1Of (t : Table) (c : String) : ℚ := percentileCont (sortedQVals t c) (1/4)

/-- `percentile_cont(0.75) WITHIN GROUP (ORDER BY col)`. -/
def q3Of (t : Table) (c : String) : ℚ := percentileCont (sortedQVals t c) (3/4)

/-- `q1 - 1.5 * iqr` with `iqr = q3 - q1`. -/
def iqrLowerBound (t : Table) (c : String) : ℚ :=
  q1Of t c - 3/2 * (q3Of t c - q1Of t c)

/-- `q3 + 1.5 * iqr` with `iqr = q3 - q1`. -/
def iqrUpperBound (t : Table) (c : String) : ℚ :=
  q3Of t c + 3/2 * (q3Of t c - q1Of t c)

/-- `col < lowerBound OR col > upperBound`. -/
def iqrOutlier (t : Table) (c : String) (x : ℚ) : Bool :=
  decide (x < iqrLowerBound t c) || decide (iqrUpperBound t c < x)

/-- Per-column statistical check: skip unless `stddev && stddev > 0`,
then select the method by the non-null row count (`< 30` uses IQR with
bounds `[Q1 − 1.5·IQR, Q3 + 1.5·IQR]`, otherwise 3-sigma with bounds
`[mean − 3·stddev, mean + 3·stddev]`). -/
def checkStatisticalOutliersCol (t : Table) (col : Col) : Option Finding :=
  match varOf (qVals t col.column_name) with
  | none => none
  | some var =>
    if 0 < var then
      if (qVals t col.column_name).length < 30 then
        mkOutlierFinding col.column_name (qVals t col.column_name).length
          (((qVals t col.column_name).min?).getD 0)
          (((qVals t col.column_name).max?).getD 0)
          (meanOf (qVals t col.column_name))
          ((qVals t col.column_name).filter (iqrOutlier t col.column_name))
          ((qVals t col.column_name).countP (iqrOutlier t col.column_name))
          ("IQR (Q1=" ++ toString (round2 (q1Of t col.column_name)) ++ ", Q3=" ++
            toString (round2 (q3Of t col.column_name)) ++ ")")
      else
        mkOutlierFinding col.column_name (qVals t col.column_name).length
          (((qVals t col.column_name).min?).getD 0)
          (((qVals t col.column_name).max?).getD 0)
          (meanOf (qVals t col.column_name))
          ((qVals t col.column_name).filter
            (sigma3Outlier (meanOf (qVals t col.column_name)) var))
          ((qVals t col.column_name).countP
            (sigma3Outlier (meanOf (qVals t col.column_name)) var))
          ("3σ (mean: " ++ toString (round2 (meanOf (qVals t col.column_name))) ++ ", σ: " ++
            toString (sqrtRound2 var) ++ ")")
    else none

/-- Numeric column eligibility:
`['DOUBLE', 'BIGINT', 'INTEGER', 'DECIMAL'].includes(col.column_type.toUpperCase())`. -/
def numericCols (t : Table) : List Col :=
  t.schema.filter (fun col =>
    decide (col.column_type.toUpper ∈ ["DOUBLE", "BIGINT", "INTEGER", "DECIMAL"]))

/-- `checkStatisticalOutliers`: numeric columns (restricted to the focus
list when one is given), capped at 5 by `columnsToCheck.slice(0, 5)`. -/
def checkStatisticalOutliers (t : Table) (fc : List String) : List Finding :=
  ((if fc.isEmpty then numericCols t
    else (numericCols t).filter (fun col => fc.contains col.column_name)).take 5).filterMap
    (checkStatisticalOutliersCol t)

/-! ### Pattern Detector (`checkPatternAnomalies`, source lines 1452-1502) -/

/-- Text column eligibility: the upper-cased declared type contains
`VARCHAR` or `TEXT`. -/
def stringCols (t : Table) : List Col :=
  t.schema.filter (fun col =>
    containsStr col.column_type.toUpper "VARCHAR" || containsStr col.column_type.toUpper "TEXT")

/-- Column selection of the pattern detector: a nonempty focus list keeps
the focused text columns with NO cap; only the unfocused branch is capped
by `stringColumns.slice(0, 3)`. -/
def patternColumnsToCheck (t : Table) (fc : List String) : List Col :=
  if fc.isEmpty then (stringCols t).take 3
  else (stringCols t).filter (fun col => fc.contains col.column_name)

def Value.toStr : Value → Option String
  | .str s => some s
  | _ => none

/-- The non-null string values of a column. -/
def strValues (t : Table) (c : String) : List String :=
  (colValues t c).filterMap Value.toStr

/-- `GROUP BY LENGTH(col) ORDER BY count DESC LIMIT 20`: the top 20
length-frequency buckets. -/
def lengthBuckets (t : Table) (c : String) : List (Nat × Nat) :=
  (sortByKeyDesc Prod.snd
    (((strValues t c).map String.length).dedup.map
      (fun L => (L, ((strValues t c).map String.length).count L)))).take 20

/-- `lengthResults.filter(r => r.str_length > 200 || r.str_length < 1)`. -/
def extremeLengthBuckets (t : Table) (c : String) : List (Nat × Nat) :=
  (lengthBuckets t c).filter (fun r => decide (200 < r.1) || decide (r.1 < 1))

def checkPatternAnomaliesCol (t : Table) (col : Col) : Option Finding :=
  let extremes := extremeLengthBuckets t col.column_name
  if extremes.isEmpty then none
  else
    some { type := .length_pattern,
           severity := if 100 < (extremes.map Prod.snd).sum then .medium else .low,
           title := "Unusual Length Patterns in " ++ col.column_name,
           impact := "Potential data truncation or corruption",
           affected_records := (extremes.map Prod.snd).sum,
           description := "Found values with extreme lengths",
           examples := some (String.intercalate "\n" (extremes.map
             (fun r => "Length " ++ toString r.1 ++ ": " ++ toString r.2 ++ " records"))),
           recommendation := some "Review data input validation and field constraints" }

def checkPatternAnomalies (t : Table) (fc : List String) : List Finding :=
  (patternColumnsToCheck t fc).filterMap (checkPatternAnomaliesCol t)

/-! ### Business-Logic Detector (`checkBusinessLogicAnomalies`,
source lines 1504-1588).  The method takes only `(tableName, schema)`:
the focus columns are never passed to it. -/

def isAmountCol (col : Col) : Bool :=
  containsStr col.column_name.toLower "amount" ||
  containsStr col.column_name.toLower "charge" ||
  containsStr col.column_name.toLower "price"

/-- `SELECT COUNT(*) ... WHERE col = 0`. -/
def zeroCountOf (t : Table) (c : String) : Nat :=
  t.rows.countP (fun r => decide (getVal r c = Value.num 0))

def isDateCol (col : Col) : Bool :=
  containsStr col.column_type.toUpper "DATE" || containsStr col.column_type.toUpper "TIMESTAMP"

def Value.toDate : Value → Option ℤ
  | .date d => some d
  | _ => none

/-- `COUNT(*)` of rows where both date columns are non-null and the first
exceeds the second. -/
def invalidDateOrderCount (t : Table) (c1 c2 : String) : Nat :=
  t.rows.countP (fun r =>
    match (getVal r c1).toDate, (getVal r c2).toDate with
    | some d1, some d2 => decide (d2 < d1)
    | _, _ => false)

/-- The business-logic detector: zero-value findings for amount-named
columns, then the date-order cross-check on the first two date-typed
columns.  (The negative-value count of the source is computed and never
used; it has no observable effect and is omitted.) -/
def checkBusinessLogicAnomalies (t : Table) : List Finding :=
  ((t.schema.filter isAmountCol).filterMap (fun col =>
    if 50 < zeroCountOf t col.column_name then
      some { type := .business_logic,
             severity := if 500 < zeroCountOf t col.column_name then .high else .medium,
             title := "Excessive Zero Values in " ++ col.column_name,
             impact := "Revenue loss, processing errors",
             affected_records := zeroCountOf t col.column_name,
             description := toString (zeroCountOf t col.column_name) ++
               " records with zero charges - potential pricing or billing errors",
             recommendation := some "Review billing logic and pricing rules" }
    else none))
  ++ (match t.schema.filter isDateCol with
      | c1 :: c2 :: _ =>
        if 0 < invalidDateOrderCount t c1.column_name c2.column_name then
          [{ type := .business_logic,
             severity := if 100 < invalidDateOrderCount t c1.column_name c2.column_name
               then .high else .medium,
             title := "Invalid Date Sequence",
             impact := "Data integrity, timeline analysis errors",
             affected_records := invalidDateOrderCount t c1.column_name c2.column_name,
             description := toString (invalidDateOrderCount t c1.column_name c2.column_name) ++
               " records where " ++ c1.column_name ++ " > " ++ c2.column_name,
             recommendation := some "Review data entry process and add validation constraints" }]
        else []
      | _ => [])

/-! ### Aggregator (`generateAnomalyReport`, source lines 1147-1253) -/

/-- The severity filter applied at each push site:
`sevOrder[x.severity] >= minSeverity`. -/
def keepAboveThreshold (minSev : Nat) (l : List Finding) : List Finding :=
  l.filter (fun f => decide (minSev ≤ sevRank f.severity))

/-- All findings collected by `generateAnomalyReport`, in detector
dispatch order (duplicates, nulls, statistical/outliers, patterns,
business logic), each filtered at its push site. -/
def collectFindings (t : Table) (thr : String) (fc : List String)
    (types : List String) : List Finding :=
  (if types.contains "duplicates"
    then keepAboveThreshold (minSeverityOf thr) (checkDuplicates t fc) else [])
  ++ (if types.contains "nulls"
    then keepAboveThreshold (minSeverityOf thr) (checkNullValues t fc) else [])
  ++ (if types.contains "statistical" || types.contains "outliers"
    then keepAboveThreshold (minSeverityOf thr) (checkStatisticalOutliers t fc) else [])
  ++ (if types.contains "patterns"
    then keepAboveThreshold (minSeverityOf thr) (checkPatternAnomalies t fc) else [])
  ++ (if types.contains "business_logic"
    then keepAboveThreshold (minSeverityOf thr) (checkBusinessLogicAnomalies t) else [])

/-- The final list
`anomalies.sort((a, b) => sevOrder[b.severity] - sevOrder[a.severity])`
that the report renderer iterates (ECMAScript 2019 sort is stable). -/
def detectAnomaliesList (t : Table) (thr : String) (fc : List String)
    (types : List String) : List Finding :=
  sortByKeyDesc (fun f => sevRank f.severity) (collectFindings t thr fc types)

/-! ### Concrete tables used by witnesses and counterexamples -/

/-- A table whose `email` column is 75% null. -/
def nullBugTable : Table :=
  { schema := [{ column_name := "email", column_type := "VARCHAR" }],
    rows := [[("email", Value.str "a")], [("email", Value.null)],
             [("email", Value.null)], [("email", Value.null)]] }

/-- The finding the null detector emits for `nullBugTable`. -/
def nullBugFinding : Finding :=
  { type := .null_values, severity := .critical,
    title := "High Null Rate in undefined",
    impact := "Data completeness, analysis accuracy",
    affected_records := 3, percentage := some 75,
    description := "3 null values (75% of total)",
    recommendation := some "Investigate data source, implement validation" }

/-- A numeric column `[1,2,3,4,100]` (5 non-null rows, so the IQR path). -/
def outlierTable : Table :=
  { schema := [{ column_name := "amount", column_type := "DOUBLE" }],
    rows := [[("amount", Value.num 1)], [("amount", Value.num 2)],
             [("amount", Value.num 3)], [("amount", Value.num 4)],
             [("amount", Value.num 100)]] }

/-- The same numeric column plus three all-null rows: 8 table rows but 5
non-null values. -/
def outlierNullTable : Table :=
  { schema := [{ column_name := "amount", column_type := "DOUBLE" }],
    rows := [[("amount", Value.num 1)], [("amount", Value.num 2)],
             [("amount", Value.num 3)], [("amount", Value.num 4)],
             [("amount", Value.num 100)], [("amount", Value.null)],
             [("amount", Value.null)], [("amount", Value.null)]] }

/-- The finding the outlier detector emits for both tables above. -/
def outlierFinding : Finding :=
  { type := .statistical_outlier, severity := .high,
    title := "Statistical Outliers in amount",
    impact := "Potential data quality issues, skewed analysis",
    affected_records := 1, percentage := some 20,
    description := "1 values identified using IQR (Q1=2, Q3=4)",
    examples := some "Range: 1 to 100\nOutlier examples: 100",
    recommendation := some "Investigate extreme values, consider data validation rules" }

/-- A table with one duplicated value in its `id` column. -/
def dupTable : Table :=
  { schema := [{ column_name := "id", column_type := "BIGINT" }],
    rows := [[("id", Value.num 1)], [("id", Value.num 1)], [("id", Value.num 2)]] }

/-- The finding the duplicate detector emits for `dupTable`. -/
def dupFinding : Finding :=
  { type := .duplicate, severity := .low,
    title := "Duplicate Values in id",
    impact := "Data integrity, potential processing errors",
    affected_records := 2,
    description := "Found 1 unique values with duplicates, max 2 occurrences",
    examples := some "1: 2 occurrences",
    recommendation := some "Review business logic for duplicates" }

/-- A table with four text columns, each containing an empty string. -/
def patternTable : Table :=
  { schema := [{ column_name := "c1", column_type := "VARCHAR" },
               { column_name := "c2", column_type := "VARCHAR" },
               { column_name := "c3", column_type := "VARCHAR" },
               { column_name := "c4", column_type := "VARCHAR" }],
    rows := [[("c1", Value.str ""), ("c2", Value.str ""),
              ("c3", Value.str ""), ("c4", Value.str "")]] }

/-! ### Properties of the stable insertion sort -/

theorem insertLe_cons_pos {le : α → α → Bool} {a b : α} {l : List α}
    (h : le a b = true) : insertLe le a (b :: l) = a :: b :: l := by
  rw [insertLe, if_pos h]

theorem insertLe_cons_neg {le : α → α → Bool} {a b : α} {l : List α}
    (h : le a b = false) : insertLe le a (b :: l) = b :: insertLe le a l := by
  rw [insertLe, if_neg (by simp [h])]

theorem keyDescLe_true {key : α → Nat} {a b : α} (h : key b ≤ key a) :
    keyDescLe key a b = true := by
  simp [keyDescLe, h]

theorem keyDescLe_false {key : α → Nat} {a b : α} (h : ¬ key b ≤ key a) :
    keyDescLe key a b = false := by
  simp [keyDescLe, h]

theorem perm_insertLe (le : α → α → Bool) (a : α) (l : List α) :
    List.Perm (insertLe le a l) (a :: l) := by
  induction l with
  | nil => exact List.Perm.refl _
  | cons b l ih =>
    rw [insertLe]
    split
    · exact List.Perm.refl _
    · exact (ih.cons b).trans (List.Perm.swap a b l)

theorem perm_isortBy (le : α → α → Bool) (l : List α) :
    List.Perm (isortBy le l) l := by
  induction l with
  | nil => exact List.Perm.refl _
  | cons a l ih =>
    rw [isortBy]
    exact (perm_insertLe le a (isortBy le l)).trans (ih.cons a)

theorem perm_sortByKeyDesc (key : α → Nat) (l : List α) :
    List.Perm (sortByKeyDesc key l) l :=
  perm_isortBy _ l

theorem insertLe_eq_cons (key : α → Nat) (a : α) (l : List α)
    (h : ∀ x ∈ l, key x ≤ key a) :
    insertLe (keyDescLe key) a l = a :: l := by
  cases l with
  | nil => rfl
  | cons b l =>
    exact insertLe_cons_pos (keyDescLe_true (h b (List.mem_cons_self b l)))

theorem pairwise_insertLe (key : α → Nat) (a : α) (l : List α)
    (h : l.Pairwise (fun x y => key y ≤ key x)) :
    (insertLe (keyDescLe key) a l).Pairwise (fun x y => key y ≤ key x) := by
  induction l with
  | nil => simp [insertLe]
  | cons b l ih =>
    rcases List.pairwise_cons.mp h with ⟨hb, hl⟩
    by_cases hba : key b ≤ key a
    · rw [insertLe_cons_pos (keyDescLe_true hba)]
      refine List.pairwise_cons.mpr ⟨?_, h⟩
      intro y hy
      rcases List.mem_cons.mp hy with rfl | hy
      · exact hba
      · exact (hb y hy).trans hba
    · rw [insertLe_cons_neg (keyDescLe_false hba)]
      refine List.pairwise_cons.mpr ⟨?_, ih hl⟩
      intro y hy
      have hy' := (perm_insertLe (keyDescLe key) a l).mem_iff.mp hy
      rcases List.mem_cons.mp hy' with rfl | hy''
      · exact Nat.le_of_not_le hba
      · exact hb y hy''

theorem pairwise_isortBy (key : α → Nat) (l : List α) :
    (isortBy (keyDescLe key) l).Pairwise (fun x y => key y ≤ key x) := by
  induction l with
  | nil => simp [isortBy]
  | cons a l ih =>
    rw [isortBy]
    exact pairwise_insertLe key a _ ih

theorem pairwise_sortByKeyDesc (key : α → Nat) (l : List α) :
    (sortByKeyDesc key l).Pairwise (fun x y => key y ≤ key x) :=
  pairwise_isortBy key l

theorem filter_insertLe (key : α → Nat) (p : α → Bool) (a : α) (l : List α)
    (h : l.Pairwise (fun x y => key y ≤ key x)) :
    (insertLe (keyDescLe key) a l).filter p =
      if p a then insertLe (keyDescLe key) a (l.filter p) else l.filter p := by
  induction l with
  | nil =>
    cases hpa : p a <;> simp [insertLe, hpa]
  | cons b l ih =>
    rcases List.pairwise_cons.mp h with ⟨hb, hl⟩
    by_cases hba : key b ≤ key a
    · rw [insertLe_cons_pos (keyDescLe_true hba)]
      cases hpa : p a with
      | true =>
        have hcons : insertLe (keyDescLe key) a ((b :: l).filter p) =
            a :: (b :: l).filter p := by
          refine insertLe_eq_cons key a _ ?_
          intro x hx
          have hx' := List.mem_of_mem_filter hx
          rcases List.mem_cons.mp hx' with rfl | hx''
          · exact hba
          · exact (hb x hx'').trans hba
        rw [List.filter_cons_of_pos (by simp [hpa]), if_pos rfl, hcons]
      | false =>
        rw [List.filter_cons_of_neg (by simp [hpa]), if_neg (by simp [hpa])]
    · rw [insertLe_cons_neg (keyDescLe_false hba)]
      cases hpb : p b with
      | true =>
        rw [List.filter_cons_of_pos (by simp [hpb]),
          List.filter_cons_of_pos (by simp [hpb]), ih hl]
        cases hpa : p a with
        | true =>
          rw [if_pos rfl, if_pos rfl,
            insertLe_cons_neg (keyDescLe_false hba)]
        | false =>
          rw [if_neg (by simp), if_neg (by simp)]
      | false =>
        rw [List.filter_cons_of_neg (by simp [hpb]),
          List.filter_cons_of_neg (by simp [hpb]), ih hl]

/-- A stable sort commutes with `filter`. -/
theorem filter_isortBy (key : α → Nat) (p : α → Bool) (l : List α) :
    (isortBy (keyDescLe key) l).filter p = isortBy (keyDescLe key) (l.filter p) := by
  induction l with
  | nil => rfl
  | cons a l ih =>
    rw [isortBy, filter_insertLe key p a _ (pairwise_isortBy key l)]
    cases hpa : p a with
    | true =>
      rw [if_pos rfl, List.filter_cons_of_pos (by simp [hpa]), isortBy, ih]
    | false =>
      rw [if_neg (by simp), List.filter_cons_of_neg (by simp [hpa]), ih]

theorem filter_sortByKeyDesc (key : α → Nat) (p : α → Bool) (l : List α) :
    (sortByKeyDesc key l).filter p = sortByKeyDesc key (l.filter p) :=
  filter_isortBy key p l

/-- Sorting a list whose elements all share one key value is the
identity (stability on one equivalence class). -/
theorem sortByKeyDesc_of_const (key : α → Nat) (k : Nat) (l : List α)
    (h : ∀ x ∈ l, key x = k) :
    sortByKeyDesc key l = l := by
  induction l with
  | nil => rfl
  | cons a l ih =>
    have hl : ∀ x ∈ l, key x = k := fun x hx => h x (List.mem_cons_of_mem a hx)
    rw [sortByKeyDesc, isortBy] at *
    rw [ih hl]
    refine insertLe_eq_cons key a l ?_
    intro x hx
    rw [hl x hx, h a (List.mem_cons_self a l)]

/-- Stability on each key class: filtering the sorted list down to one key
value returns those elements in their original order. -/
theorem filter_keyclass_sortByKeyDesc (key : α → Nat) (p : α → Bool) (k : Nat)
    (l : List α) (hp : ∀ x, p x = true → key x = k) :
    (sortByKeyDesc key l).filter p = l.filter p := by
  rw [filter_sortByKeyDesc]
  refine sortByKeyDesc_of_const key k _ ?_
  intro x hx
  exact hp x (List.of_mem_filter hx)

/-! ### Inversion lemmas for the detector outputs -/

theorem nullFindingFor_fields {nc tr : Nat} {f : Finding}
    (h : nullFindingFor nc tr = some f) :
    f.type = FType.null_values ∧ f.severity = nullSeverityFor nc tr ∧
    f.affected_records = nc ∧ f.percentage = some (nullPctFor nc tr) ∧
    f.title = "High Null Rate in undefined" := by
  rw [nullFindingFor] at h
  split at h
  · split at h
    · cases h
      exact ⟨rfl, rfl, rfl, rfl, rfl⟩
    · exact Option.noConfusion h
  · exact Option.noConfusion h

theorem checkNullValuesCol_fields {t : Table} {c : String} {f : Finding}
    (h : checkNullValuesCol t c = some f) :
    f.type = FType.null_values ∧
    f.severity = nullSeverityFor (nullCountOf t c) t.rows.length ∧
    f.affected_records = nullCountOf t c ∧
    f.percentage = some (nullPctFor (nullCountOf t c) t.rows.length) ∧
    f.title = "High Null Rate in undefined" := by
  rw [checkNullValuesCol] at h
  split at h
  · exact nullFindingFor_fields h
  · exact Option.noConfusion h

theorem checkDuplicatesCol_fields {t : Table} {c : String} {f : Finding}
    (h : checkDuplicatesCol t c = some f) :
    f.type = FType.duplicate ∧ f.affected_records = totalDuplicateRecords t c ∧
    f.severity = (if 50000 < maxKeptRepeat t c then Severity.critical
      else if 1000 < maxKeptRepeat t c then Severity.high
      else if 10 < maxKeptRepeat t c then Severity.medium else Severity.low) := by
  rw [checkDuplicatesCol] at h
  split at h
  · split at h
    · exact Option.noConfusion h
    · cases h
      exact ⟨rfl, rfl, rfl⟩
  · exact Option.noConfusion h

theorem mkOutlierFinding_fields {c : String} {n : Nat} {minV maxV mean : ℚ}
    {outs : List ℚ} {oc : Nat} {m : String} {f : Finding}
    (h : mkOutlierFinding c n minV maxV mean outs oc m = some f) :
    f.type = FType.statistical_outlier ∧ f.affected_records = oc ∧
    f.percentage = some (round2 ((oc : ℚ) / (n : ℚ) * 100)) ∧
    f.description = toString oc ++ " values identified using " ++ m := by
  rw [mkOutlierFinding] at h
  split at h
  · cases h
    exact ⟨rfl, rfl, rfl, rfl⟩
  · exact Option.noConfusion h

theorem checkStatisticalOutliersCol_fields {t : Table} {col : Col} {f : Finding}
    (h : checkStatisticalOutliersCol t col = some f) :
    f.type = FType.statistical_outlier ∧
    f.percentage = some (round2 ((f.affected_records : ℚ) /
      (((qVals t col.column_name).length : ℚ)) * 100)) := by
  rw [checkStatisticalOutliersCol] at h
  split at h
  · exact Option.noConfusion h
  · split at h
    · split at h
      · rcases mkOutlierFinding_fields h with ⟨ht, ha, hp, _⟩
        exact ⟨ht, by rw [hp, ha]⟩
      · rcases mkOutlierFinding_fields h with ⟨ht, ha, hp, _⟩
        exact ⟨ht, by rw [hp, ha]⟩
    · exact Option.noConfusion h

theorem checkPatternAnomaliesCol_type {t : Table} {col : Col} {f : Finding}
    (h : checkPatternAnomaliesCol t col = some f) :
    f.type = FType.length_pattern := by
  simp only [checkPatternAnomaliesCol] at h
  split at h
  · exact Option.noConfusion h
  · cases h
    rfl

theorem checkBusinessLogicAnomalies_type {t : Table} {f : Finding}
    (h : f ∈ checkBusinessLogicAnomalies t) :
    f.type = FType.business_logic := by
  rw [checkBusinessLogicAnomalies] at h
  rcases List.mem_append.mp h with h | h
  · rcases List.mem_filterMap.mp h with ⟨col, _, hsome⟩
    split at hsome
    · cases hsome
      rfl
    · exact Option.noConfusion hsome
  · split at h
    · split at h
      · rw [List.mem_singleton.mp h]
      · exact absurd h (List.not_mem_nil f)
    · exact absurd h (List.not_mem_nil f)

theorem type_of_mem_checkDuplicates {t : Table} {fc : List String} {f : Finding}
    (h : f ∈ checkDuplicates t fc) : f.type = FType.duplicate := by
  rw [checkDuplicates] at h
  rcases List.mem_filterMap.mp h with ⟨c, _, hc⟩
  exact (checkDuplicatesCol_fields hc).1

theorem type_of_mem_checkNullValues {t : Table} {fc : List String} {f : Finding}
    (h : f ∈ checkNullValues t fc) : f.type = FType.null_values := by
  rw [checkNullValues] at h
  rcases List.mem_filterMap.mp h with ⟨c, _, hc⟩
  exact (checkNullValuesCol_fields hc).1

theorem type_of_mem_checkStatisticalOutliers {t : Table} {fc : List String} {f : Finding}
    (h : f ∈ checkStatisticalOutliers t fc) : f.type = FType.statistical_outlier := by
  rw [checkStatisticalOutliers] at h
  rcases List.mem_filterMap.mp h with ⟨col, _, hc⟩
  exact (checkStatisticalOutliersCol_fields hc).1

theorem type_of_mem_checkPatternAnomalies {t : Table} {fc : List String} {f : Finding}
    (h : f ∈ checkPatternAnomalies t fc) : f.type = FType.length_pattern := by
  rw [checkPatternAnomalies] at h
  rcases List.mem_filterMap.mp h with ⟨col, _, hc⟩
  exact checkPatternAnomaliesCol_type hc

/-! ### Aggregator lemmas -/

theorem rank_of_mem_keep {m : Nat} {l : List Finding} {f : Finding}
    (h : f ∈ keepAboveThreshold m l) : m ≤ sevRank f.severity := by
  rw [keepAboveThreshold] at h
  simpa using List.of_mem_filter h

theorem mem_of_mem_keep {m : Nat} {l : List Finding} {f : Finding}
    (h : f ∈ keepAboveThreshold m l) : f ∈ l := by
  rw [keepAboveThreshold] at h
  exact List.mem_of_mem_filter h

theorem rank_of_mem_collect {t : Table} {thr : String} {fc : List String}
    {types : List String} {f : Finding}
    (h : f ∈ collectFindings t thr fc types) :
    minSeverityOf thr ≤ sevRank f.severity := by
  rw [collectFindings] at h
  simp only [List.mem_append] at h
  rcases h with ((((h | h) | h) | h) | h) <;>
    (split at h
     · exact rank_of_mem_keep h
     · exact absurd h (List.not_mem_nil f))

set_option maxRecDepth 8000

/-! ### The claims -/

/-- C1.  For every table, every recognized severity threshold, and every
selection of anomaly types, the report produced by `detectAnomalies`
contains no finding whose severity rank (low=1 < medium=2 < high=3 <
critical=4) is strictly less than the rank of the requested threshold; in
particular, with `severityThreshold = "critical"` every reported finding
has severity critical. -/
theorem C1_severity_threshold_filter (t : Table) (thr : String) (fc : List String)
    (types : List String) (r : Nat) (f : Finding)
    (hr : sevOrderLookup thr = some r)
    (hf : f ∈ detectAnomaliesList t thr fc types) :
    r ≤ sevRank f.severity ∧ (thr = "critical" → f.severity = Severity.critical) := by
  rw [detectAnomaliesList] at hf
  have hmem : f ∈ collectFindings t thr fc types :=
    (perm_sortByKeyDesc (fun f => sevRank f.severity) _).mem_iff.mp hf
  have hrank := rank_of_mem_collect hmem
  have hms : minSeverityOf thr = r := by rw [minSeverityOf, hr]; rfl
  refine ⟨hms ▸ hrank, ?_⟩
  intro hc
  subst hc
  have h4 : (4 : Nat) = r := Option.some.inj hr
  have hge : 4 ≤ sevRank f.severity := by omega
  cases hs : f.severity
  · rw [hs] at hge; simp [sevRank] at hge
  · rw [hs] at hge; simp [sevRank] at hge
  · rw [hs] at hge; simp [sevRank] at hge
  · rfl

/-- Witness for C1 at a concrete input: the 75%-null table, threshold
`"critical"`, running only the null detector. -/
theorem C1_severity_threshold_filter_witness :
    4 ≤ sevRank nullBugFinding.severity ∧ nullBugFinding.severity = Severity.critical := by
  have h := C1_severity_threshold_filter nullBugTable "critical" [] ["nulls"] 4
    nullBugFinding rfl (by with_unfolding_all decide)
  exact ⟨h.1, h.2 rfl⟩

/-- C2.  For every column considered by the Null Detector, a
`null_values` finding is emitted iff the column's null count is positive
and either the computed severity is not low or the null count exceeds
100, where the severity computed from the rounded null percentage is
critical above 50%, high above 25%, medium above 10%, and low otherwise;
hence 101 nulls out of 100,000 rows yield a finding and 99 nulls out of
100,000 rows do not. -/
theorem C2_null_emission_rule :
    (∀ (t : Table) (c : String), c ∈ schemaNames t →
      ((checkNullValuesCol t c).isSome ↔
        (0 < nullCountOf t c ∧
          (nullSeverityFor (nullCountOf t c) t.rows.length ≠ Severity.low ∨
            100 < nullCountOf t c)))) ∧
    (∀ (nc tr : Nat), nullSeverityFor nc tr =
      if 50 < nullPctFor nc tr then Severity.critical
      else if 25 < nullPctFor nc tr then Severity.high
      else if 10 < nullPctFor nc tr then Severity.medium
      else Severity.low) ∧
    (nullFindingFor 101 100000).isSome = true ∧
    (nullFindingFor 99 100000).isSome = false := by
  refine ⟨?_, fun nc tr => rfl, by with_unfolding_all decide, by with_unfolding_all decide⟩
  intro t c hc
  rw [checkNullValuesCol, if_pos hc, nullFindingFor]
  by_cases h0 : 0 < nullCountOf t c
  · rw [if_pos h0]
    by_cases hg : nullSeverityFor (nullCountOf t c) t.rows.length ≠ Severity.low ∨
        100 < nullCountOf t c
    · rw [if_pos hg]
      simp [h0, hg]
    · rw [if_neg hg]
      simp [h0, hg]
  · rw [if_neg h0]
    simp [h0]

/-- Witness for C2 at a concrete input: the 75%-null table. -/
theorem C2_null_emission_rule_witness :
    (checkNullValuesCol nullBugTable "email").isSome = true := by
  have h := C2_null_emission_rule.1 nullBugTable "email" (by decide)
  exact h.mpr (by with_unfolding_all decide)

/-- The duplicate-group query returns nothing exactly when no non-null
value repeats. -/
theorem dupGroupsOf_eq_nil_iff (t : Table) (c : String) :
    dupGroupsOf t c = [] ↔ ∀ v ∈ nonNullValues t c, (nonNullValues t c).count v ≤ 1 := by
  rw [dupGroupsOf, List.filter_eq_nil_iff]
  constructor
  · intro h v hv
    have := h (v, (nonNullValues t c).count v)
      (List.mem_map_of_mem _ (List.mem_dedup.mpr hv))
    simpa [Nat.not_lt] using this
  · intro h g hg
    rcases List.mem_map.mp hg with ⟨v, hv, rfl⟩
    simpa [Nat.not_lt] using h v (List.mem_dedup.mp hv)

theorem keptDupGroups_eq_nil_iff (t : Table) (c : String) :
    keptDupGroups t c = [] ↔ dupGroupsOf t c = [] := by
  rw [keptDupGroups]
  constructor
  · intro h
    have htake := congrArg List.length h
    rw [List.length_take] at htake
    have hlen := (perm_sortByKeyDesc Prod.snd (dupGroupsOf t c)).length_eq
    simp only [List.length_nil] at htake
    rcases Nat.min_eq_zero_iff.mp htake with h10 | hL
    · omega
    · exact List.length_eq_zero.mp (by omega)
  · intro h
    rw [h]
    rfl

theorem sum_map_filter_le (p : α → Bool) (g : α → Nat) (l : List α) :
    ((l.filter p).map g).sum ≤ (l.map g).sum := by
  induction l with
  | nil => simp
  | cons a l ih =>
    cases hp : p a with
    | true =>
      rw [List.filter_cons_of_pos (by simp [hp])]
      simp only [List.map_cons, List.sum_cons]
      omega
    | false =>
      rw [List.filter_cons_of_neg (by simp [hp])]
      simp only [List.map_cons, List.sum_cons]
      omega

theorem sum_take_le (l : List Nat) (n : Nat) : (l.take n).sum ≤ l.sum := by
  have := List.sum_take_add_sum_drop l n
  omega

/-- The `affectedRecords` of a duplicate finding, the sum of the repeat
counts over the kept groups, never exceeds the table's row count. -/
theorem totalDuplicateRecords_le (t : Table) (c : String) :
    totalDuplicateRecords t c ≤ t.rows.length := by
  rw [totalDuplicateRecords]
  have h1 : ((keptDupGroups t c).map Prod.snd).sum ≤
      ((sortByKeyDesc Prod.snd (dupGroupsOf t c)).map Prod.snd).sum := by
    rw [keptDupGroups, List.map_take]
    exact sum_take_le _ _
  have h2 : ((sortByKeyDesc Prod.snd (dupGroupsOf t c)).map Prod.snd).sum =
      ((dupGroupsOf t c).map Prod.snd).sum :=
    ((perm_sortByKeyDesc Prod.snd (dupGroupsOf t c)).map Prod.snd).sum_eq
  have h3 : ((dupGroupsOf t c).map Prod.snd).sum ≤
      (((nonNullValues t c).dedup.map
        (fun v => (v, (nonNullValues t c).count v))).map Prod.snd).sum := by
    rw [dupGroupsOf]
    exact sum_map_filter_le _ _ _
  have h4 : (((nonNullValues t c).dedup.map
      (fun v => (v, (nonNullValues t c).count v))).map Prod.snd) =
      (nonNullValues t c).dedup.map (fun v => (nonNullValues t c).count v) := by
    rw [List.map_map]
    rfl
  have h5 : ((nonNullValues t c).dedup.map
      (fun v => (nonNullValues t c).count v)).sum = (nonNullValues t c).length :=
    List.sum_map_count_dedup_eq_length _
  have h6 : (nonNullValues t c).length ≤ (colValues t c).length :=
    List.length_filter_le _ _
  have h7 : (colValues t c).length = t.rows.length := by
    rw [colValues, List.length_map]
  rw [h4] at h3
  omega

/-- C4.  For every column checked by the Duplicate Detector, a finding is
emitted iff some non-null value occurs more than once in that column, and
the finding's severity is determined by the single largest repeat count
among the kept duplicate groups: critical above 50,000, high above 1,000,
medium above 10, and low otherwise. -/
theorem C4_duplicate_emission_severity (t : Table) (c : String)
    (hc : c ∈ schemaNames t) :
    ((checkDuplicatesCol t c).isSome ↔
      ∃ v ∈ nonNullValues t c, 2 ≤ (nonNullValues t c).count v) ∧
    (∀ f, checkDuplicatesCol t c = some f →
      f.severity = (if 50000 < maxKeptRepeat t c then Severity.critical
        else if 1000 < maxKeptRepeat t c then Severity.high
        else if 10 < maxKeptRepeat t c then Severity.medium else Severity.low)) := by
  refine ⟨?_, fun f hf => (checkDuplicatesCol_fields hf).2.2⟩
  rw [checkDuplicatesCol, if_pos hc]
  by_cases he : (keptDupGroups t c).isEmpty
  · rw [if_pos he]
    have hnil := (keptDupGroups_eq_nil_iff t c).mp (List.isEmpty_iff.mp he)
    have hall := (dupGroupsOf_eq_nil_iff t c).mp hnil
    simp only [Option.isSome_none]
    constructor
    · intro h
      exact absurd h (by simp)
    · rintro ⟨v, hv, hcount⟩
      have := hall v hv
      omega
  · rw [if_neg he]
    simp only [Option.isSome_some, true_iff]
    have hne : dupGroupsOf t c ≠ [] := by
      intro hnil
      exact he (List.isEmpty_iff.mpr ((keptDupGroups_eq_nil_iff t c).mpr hnil))
    have : ¬ ∀ v ∈ nonNullValues t c, (nonNullValues t c).count v ≤ 1 := by
      intro hall
      exact hne ((dupGroupsOf_eq_nil_iff t c).mpr hall)
    push_neg at this
    rcases this with ⟨v, hv, hcount⟩
    exact ⟨v, hv, by omega⟩

/-- Witness for C4 at a concrete input: a column `[1, 1, 2]`. -/
theorem C4_duplicate_emission_severity_witness :
    (checkDuplicatesCol dupTable "id").isSome = true ∧
    dupFinding.severity = Severity.low := by
  have h := C4_duplicate_emission_severity dupTable "id" (by decide)
  refine ⟨h.1.mpr ⟨Value.num 1, by with_unfolding_all decide,
    by with_unfolding_all decide⟩, ?_⟩
  have h2 := h.2 dupFinding (by with_unfolding_all decide)
  rw [h2]
  with_unfolding_all decide

/-- C9.  For every table and every column checked by the Duplicate
Detector, the `affectedRecords` of that column's duplicate finding (the
sum of the repeat counts over the kept duplicate groups) is at most the
table's total row count. -/
theorem C9_duplicate_affected_le_rows (t : Table) (c : String) (f : Finding)
    (hf : checkDuplicatesCol t c = some f) :
    f.affected_records ≤ t.rows.length := by
  rw [(checkDuplicatesCol_fields hf).2.1]
  exact totalDuplicateRecords_le t c

/-- Witness for C9 at a concrete input: a column `[1, 1, 2]` in a
three-row table. -/
theorem C9_duplicate_affected_le_rows_witness :
    dupFinding.affected_records ≤ dupTable.rows.length :=
  C9_duplicate_affected_le_rows dupTable "id" dupFinding (by with_unfolding_all decide)

/-- An infix of `m` is an infix of `p ++ m ++ s`. -/
theorem infix_extend {l m : List Char} (p s : List Char) (h : l <:+: m) :
    l <:+: p ++ m ++ s := by
  rcases h with ⟨u, v, huv⟩
  exact ⟨p ++ u, v ++ s, by rw [← huv]; simp [List.append_assoc]⟩

theorem containsStr_append_right (p m needle : String)
    (h : containsStr m needle = true) : containsStr (p ++ m) needle = true := by
  simp only [containsStr, decide_eq_true_eq, String.data_append] at h ⊢
  simpa using infix_extend p.data [] h

theorem containsStr_append_left (m s needle : String)
    (h : containsStr m needle = true) : containsStr (m ++ s) needle = true := by
  simp only [containsStr, decide_eq_true_eq, String.data_append] at h ⊢
  simpa using infix_extend [] s.data h

/-- C3.  For every numeric column whose standard deviation is non-null
and strictly positive, the Statistical Outlier Detector selects its
method by non-null row count (IQR below 30, 3-sigma at 30 or more) and
names the chosen method in the finding's description; a column whose
standard deviation is zero or null produces no finding and no error. -/
theorem C3_outlier_method_selection (t : Table) (col : Col) :
    (∀ f, checkStatisticalOutliersCol t col = some f →
      ((qVals t col.column_name).length < 30 → containsStr f.description "IQR" = true) ∧
      (30 ≤ (qVals t col.column_name).length → containsStr f.description "3σ" = true)) ∧
    ((varOf (qVals t col.column_name) = none ∨ varOf (qVals t col.column_name) = some 0) →
      checkStatisticalOutliersCol t col = none) := by
  constructor
  · intro f hf
    rw [checkStatisticalOutliersCol] at hf
    split at hf
    · exact absurd hf (by simp)
    · split at hf
      · split at hf
        · rename_i hlen
          refine ⟨fun _ => ?_, fun h30 => absurd hlen (by omega)⟩
          rcases mkOutlierFinding_fields hf with ⟨-, -, -, hd⟩
          rw [hd]
          refine containsStr_append_right _ _ _ ?_
          refine containsStr_append_left _ _ _ ?_
          refine containsStr_append_left _ _ _ ?_
          refine containsStr_append_left _ _ _ ?_
          refine containsStr_append_left _ _ _ ?_
          decide
        · rename_i hlen
          refine ⟨fun hlt => absurd hlt hlen, fun _ => ?_⟩
          rcases mkOutlierFinding_fields hf with ⟨-, -, -, hd⟩
          rw [hd]
          refine containsStr_append_right _ _ _ ?_
          refine containsStr_append_left _ _ _ ?_
          refine containsStr_append_left _ _ _ ?_
          refine containsStr_append_left _ _ _ ?_
          refine containsStr_append_left _ _ _ ?_
          decide
      · exact absurd hf (by simp)
  · intro hv
    rcases hv with hv | hv
    · rw [checkStatisticalOutliersCol, hv]
    · rw [checkStatisticalOutliersCol, hv]
      simp

/-- Witness for C3 at a concrete input: the 5-row column `[1,2,3,4,100]`
takes the IQR branch and the description names IQR. -/
theorem C3_outlier_method_selection_witness :
    (qVals outlierTable "amount").length < 30 ∧
    containsStr outlierFinding.description "IQR" = true := by
  have h := (C3_outlier_method_selection outlierTable
    { column_name := "amount", column_type := "DOUBLE" }).1 outlierFinding
    (by with_unfolding_all decide)
  exact ⟨by with_unfolding_all decide, h.1 (by with_unfolding_all decide)⟩

/-- C5 counterexample.  With a 4-column focus list over 4 text columns,
the pattern detector examines (and reports on) all 4 columns: the focus
list is not capped at 3. -/
theorem C5_pattern_cap_counterexample :
    (patternColumnsToCheck patternTable ["c1", "c2", "c3", "c4"]).length = 4 ∧
    (checkPatternAnomalies patternTable ["c1", "c2", "c3", "c4"]).length = 4 := by
  with_unfolding_all decide

/-- C5 amended.  The Pattern Detector examines at most 3 text columns
only when no focus list is supplied (the first 3 text columns); a
supplied focus list is not capped: every text column whose name appears
in it is examined. -/
theorem C5_pattern_columns_amended (t : Table) (fc : List String) :
    (fc.isEmpty = true →
      patternColumnsToCheck t fc = (stringCols t).take 3 ∧
      (checkPatternAnomalies t fc).length ≤ 3) ∧
    (fc.isEmpty = false →
      patternColumnsToCheck t fc = (stringCols t).filter
        (fun col => fc.contains col.column_name)) := by
  constructor
  · intro h
    refine ⟨by rw [patternColumnsToCheck, if_pos h], ?_⟩
    calc (checkPatternAnomalies t fc).length
        ≤ (patternColumnsToCheck t fc).length := by
          rw [checkPatternAnomalies]
          exact List.length_filterMap_le _ _
      _ ≤ 3 := by
          rw [patternColumnsToCheck, if_pos h, List.length_take]
          exact min_le_left _ _
  · intro h
    rw [patternColumnsToCheck, if_neg (by simp [h])]

/-- Witness for the amended C5 at concrete inputs: unfocused and focused
invocations on the 4-text-column table. -/
theorem C5_pattern_columns_amended_witness :
    (patternColumnsToCheck patternTable [] = (stringCols patternTable).take 3 ∧
      (checkPatternAnomalies patternTable []).length ≤ 3) ∧
    patternColumnsToCheck patternTable ["c1"] = (stringCols patternTable).filter
      (fun col => ["c1"].contains col.column_name) :=
  ⟨(C5_pattern_columns_amended patternTable []).1 rfl,
   (C5_pattern_columns_amended patternTable ["c1"]).2 rfl⟩

/-- C6 counterexample.  On the 8-row table whose numeric column has 5
non-null values `[1,2,3,4,100]`, the outlier finding's percentage is 20
(= 1/5 · 100, the non-null denominator), not `round2(1 · 100 / 8) = 12.5`
as the claim's total-row denominator would give. -/
theorem C6_percentage_counterexample :
    checkStatisticalOutliersCol outlierNullTable
      { column_name := "amount", column_type := "DOUBLE" } = some outlierFinding ∧
    outlierNullTable.rows.length = 8 ∧
    outlierFinding.affected_records = 1 ∧
    outlierFinding.percentage = some 20 ∧
    round2 ((1 : ℚ) * 100 / 8) = 25/2 ∧
    ¬ outlierFinding.percentage =
      some (round2 ((outlierFinding.affected_records : ℚ) * 100 /
        (outlierNullTable.rows.length : ℚ))) := by
  with_unfolding_all decide

theorem nullFindingFor_pos {nc tr : Nat} {f : Finding}
    (h : nullFindingFor nc tr = some f) : 0 < nc := by
  rw [nullFindingFor] at h
  split at h
  · assumption
  · exact Option.noConfusion h

theorem checkNullValuesCol_pos {t : Table} {c : String} {f : Finding}
    (h : checkNullValuesCol t c = some f) : 0 < nullCountOf t c := by
  rw [checkNullValuesCol] at h
  split at h
  · exact nullFindingFor_pos h
  · exact Option.noConfusion h

theorem nullCountOf_le (t : Table) (c : String) :
    nullCountOf t c ≤ t.rows.length := by
  rw [nullCountOf]
  have h := List.countP_le_length (fun v => decide (v = Value.null)) (l := colValues t c)
  rw [colValues, List.length_map] at h
  exact h

/-- C6 amended.  Every percentage-carrying finding's percentage is
`affectedRecords / denominator · 100` rounded to two decimals, where the
denominator is the table's total row count for null-rate findings but the
column's non-null row count for outlier-rate findings. -/
theorem C6_percentage_amended :
    (∀ (t : Table) (c : String) (f : Finding), checkNullValuesCol t c = some f →
      f.percentage = some (round2 ((f.affected_records : ℚ) * 100 /
        (t.rows.length : ℚ)))) ∧
    (∀ (t : Table) (col : Col) (g : Finding),
      checkStatisticalOutliersCol t col = some g →
      g.percentage = some (round2 ((g.affected_records : ℚ) /
        ((qVals t col.column_name).length : ℚ) * 100))) := by
  constructor
  · intro t c f hf
    have h0 := checkNullValuesCol_pos hf
    have hle := nullCountOf_le t c
    rcases checkNullValuesCol_fields hf with ⟨-, -, ha, hp, -⟩
    rw [hp, ha, nullPctFor, if_neg (by omega)]
  · intro t col g hg
    exact (checkStatisticalOutliersCol_fields hg).2

/-- Witness for the amended C6 at concrete inputs: the null finding of
the 75%-null table and the outlier finding of the all-non-null numeric
table. -/
theorem C6_percentage_amended_witness :
    nullBugFinding.percentage = some (round2 ((nullBugFinding.affected_records : ℚ) * 100 /
      (nullBugTable.rows.length : ℚ))) ∧
    outlierFinding.percentage = some (round2 ((outlierFinding.affected_records : ℚ) /
      ((qVals outlierTable "amount").length : ℚ) * 100)) :=
  ⟨C6_percentage_amended.1 nullBugTable "email" nullBugFinding
    (by with_unfolding_all decide),
   C6_percentage_amended.2 outlierTable { column_name := "amount", column_type := "DOUBLE" }
     outlierFinding (by with_unfolding_all decide)⟩

/-- C7.  The claim says every null-rate finding's title contains the
offending column's name; the code instead interpolates
`column.column_name` where `column` is already a string, so the title
renders literally as `"High Null Rate in undefined"`.  At the failing
input (column `email`, 3 nulls in 4 rows) the emitted title does not
contain `email`. -/
theorem C7_null_title_bug :
    checkNullValuesCol nullBugTable "email" = some nullBugFinding ∧
    nullBugFinding.title = "High Null Rate in undefined" ∧
    containsStr nullBugFinding.title "email" = false := by
  refine ⟨by with_unfolding_all decide, rfl, by decide⟩

/-- C8.  In every rendered report, findings appear in descending order of
severity rank, and findings of equal severity appear in detector dispatch
order: the final sort is stable with respect to the order in which
findings were collected. -/
theorem C8_report_sorted_stable (t : Table) (thr : String) (fc : List String)
    (types : List String) :
    (detectAnomaliesList t thr fc types).Pairwise
      (fun a b => sevRank b.severity ≤ sevRank a.severity) ∧
    ∀ s : Severity,
      (detectAnomaliesList t thr fc types).filter (fun f => decide (f.severity = s)) =
        (collectFindings t thr fc types).filter (fun f => decide (f.severity = s)) := by
  constructor
  · rw [detectAnomaliesList]
    exact pairwise_sortByKeyDesc _ _
  · intro s
    rw [detectAnomaliesList]
    refine filter_keyclass_sortByKeyDesc _ _ (sevRank s) _ ?_
    intro x hx
    rw [decide_eq_true_eq] at hx
    rw [hx]

/-- C10.  The business-logic findings of the final report are independent
of the focus-column list: the aggregator never passes the focus list to
`checkBusinessLogicAnomalies`. -/
theorem C10_business_independent_of_focus (t : Table) (thr : String)
    (types : List String) (fc1 fc2 : List String) :
    (detectAnomaliesList t thr fc1 types).filter
      (fun f => decide (f.type = FType.business_logic)) =
    (detectAnomaliesList t thr fc2 types).filter
      (fun f => decide (f.type = FType.business_logic)) := by
  have key : ∀ fc, (detectAnomaliesList t thr fc types).filter
      (fun f => decide (f.type = FType.business_logic)) =
      sortByKeyDesc (fun f => sevRank f.severity)
        ((if types.contains "business_logic"
          then keepAboveThreshold (minSeverityOf thr) (checkBusinessLogicAnomalies t)
          else []).filter (fun f => decide (f.type = FType.business_logic))) := by
    intro fc
    rw [detectAnomaliesList, filter_sortByKeyDesc, collectFindings]
    congr 1
    rw [List.filter_append, List.filter_append, List.filter_append, List.filter_append]
    have e1 : (if types.contains "duplicates"
        then keepAboveThreshold (minSeverityOf thr) (checkDuplicates t fc)
        else []).filter (fun f => decide (f.type = FType.business_logic)) = [] := by
      split
      · rw [List.filter_eq_nil_iff]
        intro f hf
        have := type_of_mem_checkDuplicates (mem_of_mem_keep hf)
        simp [this]
      · rfl
    have e2 : (if types.contains "nulls"
        then keepAboveThreshold (minSeverityOf thr) (checkNullValues t fc)
        else []).filter (fun f => decide (f.type = FType.business_logic)) = [] := by
      split
      · rw [List.filter_eq_nil_iff]
        intro f hf
        have := type_of_mem_checkNullValues (mem_of_mem_keep hf)
        simp [this]
      · rfl
    have e3 : (if types.contains "statistical" || types.contains "outliers"
        then keepAboveThreshold (minSeverityOf thr) (checkStatisticalOutliers t fc)
        else []).filter (fun f => decide (f.type = FType.business_logic)) = [] := by
      split
      · rw [List.filter_eq_nil_iff]
        intro f hf
        have := type_of_mem_checkStatisticalOutliers (mem_of_mem_keep hf)
        simp [this]
      · rfl
    have e4 : (if types.contains "patterns"
        then keepAboveThreshold (minSeverityOf thr) (checkPatternAnomalies t fc)
        else []).filter (fun f => decide (f.type = FType.business_logic)) = [] := by
      split
      · rw [List.filter_eq_nil_iff]
        intro f hf
        have := type_of_mem_checkPatternAnomalies (mem_of_mem_keep hf)
        simp [this]
      · rfl
    rw [e1, e2, e3, e4]
    simp
  rw [key fc1, key fc2]

/-- For `v > 0`, the squared test `0 < a ∧ 9·v < a²` says exactly
`3·√v < a` over the reals. -/
theorem three_sqrt_lt_iff (a v : ℝ) (hv : 0 < v) :
    (0 < a ∧ 9 * v < a ^ 2) ↔ 3 * Real.sqrt v < a := by
  have h9 : Real.sqrt (9 * v) = 3 * Real.sqrt v := by
    rw [show (9 : ℝ) * v = 3 ^ 2 * v by ring, Real.sqrt_mul (by positivity),
      Real.sqrt_sq (by norm_num)]
  constructor
  · rintro ⟨ha, hsq⟩
    rw [← h9]
    exact (Real.sqrt_lt' ha).mpr hsq
  · intro h
    have ha : 0 < a := lt_of_le_of_lt (by positivity) h
    rw [← h9] at h
    exact ⟨ha, (Real.sqrt_lt' ha).mp h⟩

/-- Justification of the squared 3-sigma test used in the embedding: for
a positive variance it agrees with `x > mean + 3·σ or x < mean − 3·σ`,
`σ = √var`, over the reals. -/
theorem sigma3Outlier_iff (mean var x : ℚ) (hv : 0 < var) :
    sigma3Outlier mean var x = true ↔
      ((mean : ℝ) + 3 * Real.sqrt (var : ℝ) < (x : ℝ) ∨
       (x : ℝ) < (mean : ℝ) - 3 * Real.sqrt (var : ℝ)) := by
  have hvR : (0 : ℝ) < (var : ℝ) := by exact_mod_cast hv
  rw [sigma3Outlier]
  simp only [Bool.or_eq_true, Bool.and_eq_true, decide_eq_true_eq]
  constructor
  · rintro (⟨h1, h2⟩ | ⟨h1, h2⟩)
    · left
      have h := (three_sqrt_lt_iff ((x : ℝ) - (mean : ℝ)) (var : ℝ) hvR).mp
        ⟨by exact_mod_cast sub_pos.mpr h1, by exact_mod_cast h2⟩
      linarith
    · right
      have h := (three_sqrt_lt_iff ((mean : ℝ) - (x : ℝ)) (var : ℝ) hvR).mp
        ⟨by exact_mod_cast sub_pos.mpr h1, by exact_mod_cast h2⟩
      linarith
  · rintro (h | h)
    · left
      have h3 := (three_sqrt_lt_iff ((x : ℝ) - (mean : ℝ)) (var : ℝ) hvR).mpr
        (by linarith)
      exact ⟨by exact_mod_cast sub_pos.mp h3.1, by exact_mod_cast h3.2⟩
    · right
      have h3 := (three_sqrt_lt_iff ((mean : ℝ) - (x : ℝ)) (var : ℝ) hvR).mpr
        (by linarith)
      exact ⟨by exact_mod_cast sub_pos.mp h3.1, by exact_mod_cast h3.2⟩

/-- Justification of the integer-square-root encoding of the rounded
display value: for `v ≥ 0`, `sqrtRound100 v` is exactly
`Math.round(100 * √v)`. -/
theorem sqrtRound100_eq_round (v : ℚ) (hv : 0 ≤ v) :
    (sqrtRound100 v : ℤ) = round (100 * Real.sqrt (v : ℝ)) := by
  have hb : (0 : ℝ) < (v.den : ℝ) := by exact_mod_cast v.den_pos
  have hv' : (v : ℝ) = (v.num.toNat : ℝ) / (v.den : ℝ) := by
    rw [Rat.cast_def]
    congr 1
    exact_mod_cast (Int.toNat_of_nonneg (Rat.num_nonneg.mpr hv)).symm
  have hsq : Real.sqrt (v : ℝ) =
      Real.sqrt ((v.num.toNat : ℝ) * (v.den : ℝ)) / (v.den : ℝ) := by
    rw [hv', show (v.num.toNat : ℝ) / (v.den : ℝ) =
        ((v.num.toNat : ℝ) * (v.den : ℝ)) / ((v.den : ℝ) ^ 2) by
      field_simp
      ring]
    rw [Real.sqrt_div (by positivity), Real.sqrt_sq hb.le]
  have hN : Real.sqrt ((40000 * v.num.toNat * v.den : ℕ) : ℝ) =
      200 * Real.sqrt ((v.num.toNat : ℝ) * (v.den : ℝ)) := by
    push_cast
    rw [show (40000 : ℝ) * v.num.toNat * v.den =
        200 ^ 2 * ((v.num.toNat : ℝ) * (v.den : ℝ)) by ring,
      Real.sqrt_mul (by positivity), Real.sqrt_sq (by norm_num)]
  have hx : 100 * Real.sqrt (v : ℝ) + 1 / 2 =
      (Real.sqrt ((40000 * v.num.toNat * v.den : ℕ) : ℝ) + (v.den : ℝ)) /
        ((2 * v.den : ℕ) : ℝ) := by
    rw [hsq, hN]
    push_cast
    field_simp
    ring
  rw [round_eq, hx]
  have hy : (0 : ℝ) ≤
      (Real.sqrt ((40000 * v.num.toNat * v.den : ℕ) : ℝ) + (v.den : ℝ)) /
        ((2 * v.den : ℕ) : ℝ) := by positivity
  have hfl : ((⌊(Real.sqrt ((40000 * v.num.toNat * v.den : ℕ) : ℝ) + (v.den : ℝ)) /
      ((2 * v.den : ℕ) : ℝ)⌋₊ : ℕ) : ℤ) =
      ⌊(Real.sqrt ((40000 * v.num.toNat * v.den : ℕ) : ℝ) + (v.den : ℝ)) /
        ((2 * v.den : ℕ) : ℝ)⌋ := by
    rw [← Int.floor_toNat]
    exact Int.toNat_of_nonneg (Int.floor_nonneg.mpr hy)
  have hnat : ⌊(Real.sqrt ((40000 * v.num.toNat * v.den : ℕ) : ℝ) + (v.den : ℝ)) /
      ((2 * v.den : ℕ) : ℝ)⌋₊ = sqrtRound100 v := by
    rw [Nat.floor_div_nat, Nat.floor_add_nat (Real.sqrt_nonneg _),
      Real.nat_floor_real_sqrt_eq_nat_sqrt, sqrtRound100]
  rw [← hfl, hnat]
